import Mathlib

/-
Shallow embedding of the rustlike dungeon-crawler engine
(src/object.rs, src/main.rs, src/gui.rs).

Modelling conventions, used throughout:
* Rust `i32` is modelled as `Int` (no arithmetic in the engine approaches
  the i32 overflow boundary on the inputs the theorems quantify over).
* `Vec<T>` is modelled as `List T`; `Vec::push` appends at the end,
  `Vec::swap_remove` / `Vec::remove` get explicit list models below.
* The message log `Vec<(String, Color)>` is modelled as a list of
  structured entries: each `format!` call site in the source gets one
  `LogMsg` constructor carrying the formatted arguments, so counting
  entries of a given shape is exact.
* `f32` distances: the source computes `((dx*dx+dy*dy) as f32).sqrt()` on
  integer deltas and only ever compares two such values, or one with a
  small integer constant.  For map-scale coordinates (|dx|,|dy| < 2^10)
  the squared values are exactly representable in f32, square roots of
  distinct integers in that range differ by far more than an f32 ulp, and
  no square root equals a representable comparison constant unless the
  radicands match exactly, so `sqrt a < sqrt b ↔ a < b` and
  `sqrt a < c ↔ a < c*c` hold for the comparisons the code performs.
  Distances are therefore embedded as exact integer squared distances and
  every threshold is squared.
* `constants.rs` and `utils.rs` are declared by `mod constants; mod utils;`
  in src/main.rs but are not present under src/.  The numeric constants
  (HEAL_AMOUNT, LIGHTNING_RANGE, LEVEL_UP_BASE, ...) are passed as
  parameters.  `PLAYER` is modelled from the spec: §3 fixes the player at
  store index 0 for the whole session, so `PLAYER = 0`.
* `Option::unwrap` panics in the source; each embedded call site marks the
  panic branch with a comment and returns the state unchanged there.  All
  theorems below carry hypotheses that keep evaluation away from those
  branches, matching the source's reachable behaviour.
-/

namespace Rustlike

/-- Colors used by the engine's log calls (tcod color constants). -/
inductive Color
  | red | green | white | orange | yellow | violet | sky
  | lightViolet | lightBlue | lightCyan | lightGreen | lightYellow
  | darkRed | darkerOrange | darkerGreen | desaturatedGreen
  | desaturatedFuchsia
  deriving DecidableEq

/-- `enum Slot` of src/object.rs. -/
inductive Slot
  | leftHand | rightHand | head
  deriving DecidableEq

/-- `struct Equipment` of src/object.rs. -/
structure Equipment where
  slot : Slot
  equipped : Bool
  power_bonus : Int
  defense_bonus : Int
  max_hp_bonus : Int
  deriving DecidableEq

/-- `enum DeathCallback` of src/object.rs. -/
inductive DeathCallback
  | player | monster
  deriving DecidableEq

/-- `struct Fighter` of src/object.rs. -/
structure Fighter where
  hp : Int
  base_defense : Int
  base_power : Int
  base_max_hp : Int
  xp : Int
  on_death : DeathCallback
  deriving DecidableEq

/-- `enum Item` of src/object.rs. -/
inductive Item
  | heal | lightning | confuse | fireball | sword | shield
  deriving DecidableEq

/-- `enum Ai` of src/object.rs; `Confused` boxes the previous state. -/
inductive Ai
  | basic
  | confused (previous_ai : Ai) (num_turns : Int)
  deriving DecidableEq

/-- One structured message-log entry: a constructor per `format!` call
site in the embedded functions, carrying the formatted arguments. -/
inductive LogMsg
  | attacksFor (attacker target : String) (dmg : Int)
  | noEffect (attacker target : String)
  | youDied
  | monsterDead (name : String) (xp : Int)
  | inventoryFull (name : String)
  | pickedUp (name : String)
  | cantEquipNotItem (name : String)
  | cantEquipNotEquipment (name : String)
  | equippedOn (name : String) (slot : Slot)
  | dequippedFrom (name : String) (slot : Slot)
  | cantDequipNotItem (name : String)
  | cantDequipNotEquipment (name : String)
  | alreadyFullHealth
  | woundsBetter
  | lightningStrikes (name : String) (dmg : Int)
  | noEnemyClose
  | confusePrompt
  | vacantEyes (name : String)
  | fireballPrompt
  | fireballExplodes (radius : Int)
  | burned (name : String) (dmg : Int)
  | cancelledMsg
  | cannotBeUsed (name : String)
  | noLongerConfused (name : String)
  | reachedLevel (level : Int)
  | droppedItem (name : String)
  deriving DecidableEq

/-- `type Messages = Vec<(String, Color)>` of src/gui.rs. -/
abbrev Messages : Type := List (LogMsg × Color)

/-- `struct Tile` of src/object.rs. -/
structure Tile where
  blocked : Bool
  block_sight : Bool
  explored : Bool
  deriving DecidableEq

/-- `Tile::empty()`. -/
def Tile.empty : Tile := ⟨false, false, false⟩

/-- `Tile::wall()`. -/
def Tile.wall : Tile := ⟨true, true, false⟩

/-- `type Map = Vec<Vec<Tile>>`, a MAP_WIDTH × MAP_HEIGHT grid indexed
`map[x][y]`.  Modelled as a total function; all writes the generator
performs are in bounds (candidate rooms are drawn inside the map), and
out-of-bounds reads would panic in the source and are never exercised. -/
def GameMap : Type := Int → Int → Tile

/-- `struct Object` of src/object.rs (field `char` is `glyph` here: `char`
is a Lean keyword-adjacent name; it holds the same `char` value). -/
structure Object where
  x : Int
  y : Int
  name : String
  blocks : Bool
  alive : Bool
  always_visible : Bool
  glyph : Char
  color : Color
  level : Int
  fighter : Option Fighter
  ai : Option Ai
  item : Option Item
  equipment : Option Equipment
  deriving DecidableEq

/-- `struct Game` of src/object.rs. -/
structure Game where
  map : GameMap
  log : Messages
  inventory : List Object
  dungeon_level : Nat

/-- `enum UseResult` of src/object.rs. -/
inductive UseResult
  | usedUp | cancelled | usedAndKept
  deriving DecidableEq

/-- Modelled from the spec: `constants.rs` is declared in src/main.rs but
absent from src/; the per-item numeric constants it defines are bundled
here and passed as parameters. -/
structure Consts where
  healAmount : Int
  lightningDamage : Int
  lightningRange : Int
  confuseNumTurns : Int
  fireballRadius : Int
  fireballDamage : Int

/-- Modelled from the spec: `PLAYER` lives in the missing `constants.rs`;
§3 of the spec fixes the player at store index 0 for the whole session. -/
def PLAYER : Nat := 0

/-- `MessageLog::add` (src/gui.rs): push one entry at the end. -/
def addMsg (log : Messages) (m : LogMsg) (c : Color) : Messages :=
  log ++ [(m, c)]

/-- `game.log.add(...)` convenience: same push, through the `Game`. -/
def Game.addLog (g : Game) (m : LogMsg) (c : Color) : Game :=
  { g with log := addMsg g.log m c }

/-- `Object::pos`. -/
def Object.pos (o : Object) : Int × Int := (o.x, o.y)

/-- `Object::set_pos`. -/
def Object.setPos (o : Object) (x y : Int) : Object :=
  { o with x := x, y := y }

/-- `Object::distance_to`, as the exact squared distance (the source
returns the f32 square root; see the header note on f32 exactness). -/
def Object.distSqTo (self other : Object) : Int :=
  (other.x - self.x) ^ 2 + (other.y - self.y) ^ 2

/-- `Object::distance(x, y)`, as the exact squared distance. -/
def Object.distSq (self : Object) (x y : Int) : Int :=
  (x - self.x) ^ 2 + (y - self.y) ^ 2

/-- `Object::get_all_equipped`: the bonus-granting set comes from the
player's inventory only; the source filters the equipped items and then
unwraps their equipment, modelled as one `filterMap`. -/
def Object.getAllEquipped (o : Object) (g : Game) : List Equipment :=
  if o.name = "player" then
    (g.inventory.filter fun it => (it.equipment.map (·.equipped)).getD false).filterMap
      (·.equipment)
  else []

/-- `Object::max_hp`. -/
def Object.maxHp (o : Object) (g : Game) : Int :=
  (o.fighter.map (·.base_max_hp)).getD 0 +
    (o.getAllEquipped g).foldl (fun sum e => sum + e.max_hp_bonus) 0

/-- `Object::power`. -/
def Object.power (o : Object) (g : Game) : Int :=
  (o.fighter.map (·.base_power)).getD 0 +
    (o.getAllEquipped g).foldl (fun sum e => sum + e.power_bonus) 0

/-- `Object::defense`. -/
def Object.defense (o : Object) (g : Game) : Int :=
  (o.fighter.map (·.base_defense)).getD 0 +
    (o.getAllEquipped g).foldl (fun sum e => sum + e.defense_bonus) 0

/-- `player_death` (src/object.rs): log, turn the glyph into a corpse. -/
def playerDeath (o : Object) (g : Game) : Object × Game :=
  ({ o with glyph := '%', color := Color.darkRed },
   g.addLog LogMsg.youDied Color.darkRed)

/-- `monster_death` (src/object.rs): log (reading `fighter.unwrap().xp`;
every call site has just matched the fighter as present), then clear
Fighter and Ai, stop blocking, rename to remains. -/
def monsterDeath (o : Object) (g : Game) : Object × Game :=
  let xp := (o.fighter.map (·.xp)).getD 0  -- unwrap; callers guarantee `some`
  let g := g.addLog (LogMsg.monsterDead o.name xp) Color.orange
  ({ o with glyph := '%', color := Color.darkRed, blocks := false,
            fighter := none, ai := none, name := "remains of " ++ o.name },
   g)

/-- `DeathCallback::callback`. -/
def DeathCallback.callback (dc : DeathCallback) (o : Object) (g : Game) :
    Object × Game :=
  match dc with
  | .player => playerDeath o g
  | .monster => monsterDeath o g

/-- First statement of `Object::take_damage` (src/object.rs:219-223):
`if let Some(fighter) = self.fighter.as_mut() { if damage > 0 { hp -= } }`. -/
def takeDamageSub (o : Object) (damage : Int) : Object :=
  match o.fighter with
  | some f =>
      if damage > 0 then { o with fighter := some { f with hp := f.hp - damage } }
      else o
  | none => o

/-- Second statement of `Object::take_damage` (src/object.rs:225-231):
re-read the fighter; at hp ≤ 0 mark dead, run the death callback once and
return the xp (read from the fighter copy taken before the callback can
clear the field). -/
def applyDeath (o : Object) (g : Game) : Object × Game × Option Int :=
  match o.fighter with
  | some f =>
      if f.hp ≤ 0 then
        let r := f.on_death.callback { o with alive := false } g
        (r.1, r.2, some f.xp)
      else (o, g, none)
  | none => (o, g, none)

/-- `Object::take_damage`: the two statements in sequence. -/
def Object.takeDamage (o : Object) (damage : Int) (g : Game) :
    Object × Game × Option Int :=
  applyDeath (takeDamageSub o damage) g

/-- `Object::attack`: damage = attacker power − defender defense; positive
damage is logged and applied via `take_damage`, crediting returned xp to
the attacker (`fighter.as_mut().unwrap()`; panic branch returns the
attacker unchanged, unreachable under the theorems' hypotheses);
non-positive damage only logs the no-effect message. -/
def Object.attack (a target : Object) (g : Game) : Object × Object × Game :=
  let damage := a.power g - target.defense g
  if damage > 0 then
    let g1 := g.addLog (LogMsg.attacksFor a.name target.name damage)
      Color.desaturatedFuchsia
    let r := target.takeDamage damage g1
    match r.2.2 with
    | some xp =>
        match a.fighter with
        | some f => ({ a with fighter := some { f with xp := f.xp + xp } }, r.1, r.2.1)
        | none => (a, r.1, r.2.1)  -- source panics here (unwrap on None)
    | none => (a, r.1, r.2.1)
  else
    (a, target,
     g.addLog (LogMsg.noEffect a.name target.name) Color.desaturatedFuchsia)

/-- `Object::heal` (src/object.rs:259-267).  The source destructures
`if let Some(mut fighter) = self.fighter`: `Fighter` is `Copy`, so the
binding is a copy of the field, the `hp` updates mutate the copy, and the
copy is dropped — `self` is returned unchanged.  The faithful embedding
is therefore the identity on the object. -/
def Object.heal (o : Object) (amount : Int) (g : Game) : Object :=
  let _ := amount
  let _ := g
  o

/-- `Object::equip`: error entry if no Item tag, error entry if no
Equipment payload; otherwise set `equipped` (logging) only when it was
false. -/
def Object.equip (o : Object) (log : Messages) : Object × Messages :=
  if o.item.isNone then
    (o, addMsg log (LogMsg.cantEquipNotItem o.name) Color.red)
  else
    match o.equipment with
    | some e =>
        if e.equipped then (o, log)
        else
          ({ o with equipment := some { e with equipped := true } },
           addMsg log (LogMsg.equippedOn o.name e.slot) Color.lightGreen)
    | none => (o, addMsg log (LogMsg.cantEquipNotEquipment o.name) Color.red)

/-- `Object::dequip`: mirror image of `equip`. -/
def Object.dequip (o : Object) (log : Messages) : Object × Messages :=
  if o.item.isNone then
    (o, addMsg log (LogMsg.cantDequipNotItem o.name) Color.red)
  else
    match o.equipment with
    | some e =>
        if e.equipped then
          ({ o with equipment := some { e with equipped := false } },
           addMsg log (LogMsg.dequippedFrom o.name e.slot) Color.lightYellow)
        else (o, log)
    | none => (o, addMsg log (LogMsg.cantDequipNotEquipment o.name) Color.red)

/-- Loop of `get_equipped_in_slot`: enumerate with the running index,
return the first index holding an equipped Equipment of the slot. -/
def getEquippedInSlotGo (slot : Slot) : Nat → List Object → Option Nat
  | _, [] => none
  | i, it :: rest =>
      if (it.equipment.map fun e => e.equipped && e.slot == slot).getD false then
        some i
      else getEquippedInSlotGo slot (i + 1) rest

/-- `get_equipped_in_slot` (src/object.rs): first inventory index holding
an equipped Equipment in the given slot. -/
def getEquippedInSlot (slot : Slot) (inventory : List Object) : Option Nat :=
  getEquippedInSlotGo slot 0 inventory

/-- `Vec::swap_remove(i)`: move the last element into position `i` and pop
the last slot.  Precondition in the source: `i < len` (panic otherwise);
all call sites below are guarded by that bound. -/
def listSwapRemove (l : List α) (i : Nat) : List α :=
  match l.getLast? with
  | none => l
  | some last => (l.set i last).dropLast

/-- Run `Object::equip` on inventory slot `index`, threading the log, as
`game.inventory[index].equip(&mut game.log)` does. -/
def equipInventoryAt (index : Nat) (g : Game) : Game :=
  match g.inventory[index]? with
  | none => g  -- source panics on an out-of-bounds index
  | some o =>
      let r := o.equip g.log
      { g with inventory := g.inventory.set index r.1, log := r.2 }

/-- `pick_item_up` (src/object.rs): reject with a message at 26 items;
otherwise swap-remove the object from the world store, push it into the
inventory, and auto-equip it when its slot has no equipped occupant
(checked on the inventory after the push, as the source does). -/
def pickItemUp (objectId : Nat) (objects : List Object) (g : Game) :
    List Object × Game :=
  if g.inventory.length ≥ 26 then
    let name := ((objects[objectId]?).map (·.name)).getD ""  -- index panic if OOB
    (objects, g.addLog (LogMsg.inventoryFull name) Color.red)
  else
    match objects[objectId]? with
    | none => (objects, g)  -- source panics on an out-of-bounds index
    | some item =>
        let objects1 := listSwapRemove objects objectId
        let g1 := g.addLog (LogMsg.pickedUp item.name) Color.green
        let index := g1.inventory.length
        let slot := item.equipment.map (·.slot)
        let g2 := { g1 with inventory := g1.inventory ++ [item] }
        match slot with
        | some s =>
            if (getEquippedInSlot s g2.inventory).isNone then
              (objects1, equipInventoryAt index g2)
            else (objects1, g2)
        | none => (objects1, g2)

/-- `toggle_equipment` (src/object.rs): on an equipped item, dequip it; on
an unequipped item, dequip the slot's current occupant if there is one,
otherwise (and only then — the `equip` sits in the `else` branch) equip
the item.  Always returns `UsedAndKept`. -/
def toggleEquipment (inventoryId : Nat) (g : Game) : Game × UseResult :=
  match (g.inventory[inventoryId]?).bind (·.equipment) with
  | none =>
      -- also covers the out-of-bounds index, on which the source panics
      (g, UseResult.cancelled)
  | some equipment =>
      if equipment.equipped then
        match g.inventory[inventoryId]? with
        | none => (g, UseResult.usedAndKept)
        | some o =>
            let r := o.dequip g.log
            ({ g with inventory := g.inventory.set inventoryId r.1, log := r.2 },
             UseResult.usedAndKept)
      else
        match getEquippedInSlot equipment.slot g.inventory with
        | some oldEquipment =>
            match g.inventory[oldEquipment]? with
            | none => (g, UseResult.usedAndKept)
            | some old =>
                let r := old.dequip g.log
                ({ g with inventory := g.inventory.set oldEquipment r.1, log := r.2 },
                 UseResult.usedAndKept)
        | none => (equipInventoryAt inventoryId g, UseResult.usedAndKept)

/-- `drop_item` (src/gui.rs): remove from the inventory, place at the
player's position, log, push into the world store.  Note: the item is not
dequipped. -/
def dropItem (inventoryId : Nat) (g : Game) (objects : List Object) :
    Game × List Object :=
  match g.inventory[inventoryId]? with
  | none => (g, objects)  -- source panics on an out-of-bounds index
  | some item =>
      let g1 := { g with inventory := g.inventory.eraseIdx inventoryId }
      let player := (objects[PLAYER]?).getD item
      let item1 := item.setPos player.x player.y
      let g2 := g1.addLog (LogMsg.droppedItem item1.name) Color.yellow
      (g2, objects ++ [item1])

/-- The candidate filter of the `closest_monster` loop: skip the player
index, anything without both Fighter and Ai, and anything out of view. -/
def lightningTarget (fov : Int → Int → Bool) (i : Nat) (o : Object) : Bool :=
  decide (i ≠ PLAYER) && o.fighter.isSome && o.ai.isSome && fov o.x o.y

/-- A default `Object`, standing in for indexing panics that the theorems'
hypotheses keep unreachable. -/
def defaultObject : Object :=
  ⟨0, 0, "", false, false, false, ' ', Color.white, 1, none, none, none, none⟩

/-- `objects[PLAYER]` as read inside `closest_monster`'s loop. -/
def storePlayer (objects : List Object) : Object :=
  (objects[PLAYER]?).getD defaultObject

/-- Loop body state of `closest_monster`: walk the store with its index,
keeping the best (index, squared distance) so far. -/
def closestMonsterGo (player : Object) (fov : Int → Int → Bool) :
    Nat → List Object → Option Nat → Int → Option Nat
  | _, [], best, _ => best
  | i, o :: rest, best, bestSq =>
      if lightningTarget fov i o then
        let dist := player.distSqTo o
        if dist < bestSq then closestMonsterGo player fov (i + 1) rest (some i) dist
        else closestMonsterGo player fov (i + 1) rest best bestSq
      else closestMonsterGo player fov (i + 1) rest best bestSq

/-- `closest_monster` (src/object.rs): scan every object, keep the
strictly closest qualifying one, starting the bar at `max_range + 1`
(squared here, per the f32 note in the header). -/
def closestMonster (maxRange : Int) (objects : List Object)
    (fov : Int → Int → Bool) : Option Nat :=
  closestMonsterGo (storePlayer objects) fov 0 objects none ((maxRange + 1) ^ 2)

/-- `cast_heal` (src/object.rs): cancelled when the player has no Fighter
or is exactly at effective max hp; otherwise log, call the (no-op, see
`Object.heal`) heal, and report the item used up. -/
def castHeal (objects : List Object) (g : Game) (c : Consts) :
    List Object × Game × UseResult :=
  match objects[PLAYER]? with
  | none => (objects, g, UseResult.cancelled)  -- source panics on empty store
  | some player =>
      match player.fighter with
      | some fighter =>
          if fighter.hp = player.maxHp g then
            (objects, g.addLog LogMsg.alreadyFullHealth Color.red,
             UseResult.cancelled)
          else
            let g1 := g.addLog LogMsg.woundsBetter Color.lightViolet
            let player1 := player.heal c.healAmount g1
            (objects.set PLAYER player1, g1, UseResult.usedUp)
      | none => (objects, g, UseResult.cancelled)

/-- Credit xp to the player (`objects[PLAYER].fighter.as_mut().unwrap()`);
the panic branch (player without Fighter) leaves the store unchanged. -/
def addXpToPlayer (objects : List Object) (xp : Int) : List Object :=
  match objects[PLAYER]? with
  | none => objects
  | some p =>
      match p.fighter with
      | some f => objects.set PLAYER { p with fighter := some { f with xp := f.xp + xp } }
      | none => objects  -- source panics here (unwrap on None)

/-- `cast_lightning` (src/object.rs): strike the closest qualifying
monster, else log and cancel. -/
def castLightning (objects : List Object) (g : Game)
    (fov : Int → Int → Bool) (c : Consts) : List Object × Game × UseResult :=
  match closestMonster c.lightningRange objects fov with
  | some monsterId =>
      match objects[monsterId]? with
      | none => (objects, g, UseResult.cancelled)  -- unreachable: id comes from the scan
      | some monster =>
          let g1 := g.addLog (LogMsg.lightningStrikes monster.name c.lightningDamage)
            Color.lightBlue
          let r := monster.takeDamage c.lightningDamage g1
          let objects1 := objects.set monsterId r.1
          let objects2 :=
            match r.2.2 with
            | some xp => addXpToPlayer objects1 xp
            | none => objects1
          (objects2, r.2.1, UseResult.usedUp)
  | none =>
      (objects, g.addLog LogMsg.noEnemyClose Color.red, UseResult.cancelled)

/-- `cast_confuse` (src/object.rs).  The interactive `target_monster` loop
(tcod mouse/keyboard polling) is modelled as the oracle argument
`targetMonster`, the id the player clicked (None on cancel). -/
def castConfuse (objects : List Object) (g : Game)
    (targetMonster : Option Nat) (c : Consts) :
    List Object × Game × UseResult :=
  let g0 := g.addLog LogMsg.confusePrompt Color.lightCyan
  match targetMonster with
  | some monsterId =>
      match objects[monsterId]? with
      | none => (objects, g0, UseResult.cancelled)  -- source panics on an OOB click id
      | some monster =>
          let oldAi := monster.ai.getD Ai.basic
          let monster1 := { monster with ai := some (Ai.confused oldAi c.confuseNumTurns) }
          let g1 := g0.addLog (LogMsg.vacantEyes monster.name) Color.lightGreen
          (objects.set monsterId monster1, g1, UseResult.usedUp)
  | none =>
      (objects, g0.addLog LogMsg.noEnemyClose Color.red, UseResult.cancelled)

/-- Loop body of `cast_fireball`: fold over the store with indices,
burning every Fighter within the radius and accumulating non-player xp. -/
def fireballGo (c : Consts) (x y : Int) :
    Nat → List Object → Game → Int → List Object × Game × Int
  | _, [], g, acc => ([], g, acc)
  | id, o :: rest, g, acc =>
      if o.distSq x y ≤ c.fireballRadius ^ 2 && o.fighter.isSome then
        let g1 := g.addLog (LogMsg.burned o.name c.fireballDamage) Color.orange
        let r := o.takeDamage c.fireballDamage g1
        let acc1 :=
          match r.2.2 with
          | some xp => if id ≠ PLAYER then acc + xp else acc
          | none => acc
        let rec2 := fireballGo c x y (id + 1) rest r.2.1 acc1
        (r.1 :: rec2.1, rec2.2)
      else
        let rec2 := fireballGo c x y (id + 1) rest g acc
        (o :: rec2.1, rec2.2)

/-- `cast_fireball` (src/object.rs); the interactive `target_tile` loop is
the oracle argument `targetTile` (None on cancel).  The source compares
`distance(x, y) <= FIREBALL_RADIUS as f32`, squared here. -/
def castFireball (objects : List Object) (g : Game)
    (targetTile : Option (Int × Int)) (c : Consts) :
    List Object × Game × UseResult :=
  let g0 := g.addLog LogMsg.fireballPrompt Color.lightCyan
  match targetTile with
  | none => (objects, g0, UseResult.cancelled)
  | some (x, y) =>
      let g1 := g0.addLog (LogMsg.fireballExplodes c.fireballRadius) Color.orange
      let r := fireballGo c x y 0 objects g1 0
      (addXpToPlayer r.1 r.2.2, r.2.1, UseResult.usedUp)

/-- `use_item` (src/object.rs): dispatch on the Item tag, then consume the
item on `UsedUp`, log on `Cancelled`, keep it on `UsedAndKept`.  The
interactive targeting loops are the two oracle arguments. -/
def useItem (inventoryId : Nat) (objects : List Object) (g : Game)
    (fov : Int → Int → Bool) (targetMonster : Option Nat)
    (targetTile : Option (Int × Int)) (c : Consts) : List Object × Game :=
  match g.inventory[inventoryId]? with
  | none => (objects, g)  -- source panics on an out-of-bounds index
  | some invObj =>
      match invObj.item with
      | none =>
          (objects, g.addLog (LogMsg.cannotBeUsed invObj.name) Color.white)
      | some item =>
          let r : List Object × Game × UseResult :=
            match item with
            | .heal => castHeal objects g c
            | .lightning => castLightning objects g fov c
            | .confuse => castConfuse objects g targetMonster c
            | .fireball => castFireball objects g targetTile c
            | .sword =>
                let t := toggleEquipment inventoryId g
                (objects, t.1, t.2)
            | .shield =>
                let t := toggleEquipment inventoryId g
                (objects, t.1, t.2)
          match r.2.2 with
          | .usedUp =>
              (r.1, { r.2.1 with inventory := r.2.1.inventory.eraseIdx inventoryId })
          | .cancelled =>
              (r.1, r.2.1.addLog LogMsg.cancelledMsg Color.white)
          | .usedAndKept => (r.1, r.2.1)

/-- `is_blocked` (src/main.rs): terrain first, then any blocking object on
the tile. -/
def isBlocked (x y : Int) (map : GameMap) (objects : List Object) : Bool :=
  (map x y).blocked || objects.any fun o => o.blocks && o.x == x && o.y == y

/-- `move_by` (src/main.rs): step unless the destination is blocked. -/
def moveBy (id : Nat) (dx dy : Int) (map : GameMap) (objects : List Object) :
    List Object :=
  match objects[id]? with
  | none => objects  -- source panics on an out-of-bounds index
  | some o =>
      if !isBlocked (o.x + dx) (o.y + dy) map objects then
        objects.set id (o.setPos (o.x + dx) (o.y + dy))
      else objects

/-- One axis of `move_towards`: `((d as f32) / distance).round() as i32`
with `distance = sqrt s`, `d*d ≤ s`.  The quotient lies in [-1, 1] and
rounds (half away from zero) to `sign d` exactly when `4*d*d ≥ s`; the
tie `4*d*d = s` would need `3*d*d` to be a perfect square, impossible for
`d ≠ 0`, so the f32 rounding mode is immaterial.  `s = 0` (division by
zero) is unreachable: `ai_basic` calls this only at squared distance ≥ 4. -/
def roundStep (d s : Int) : Int :=
  if d = 0 then 0
  else if 4 * d ^ 2 ≥ s then (if d > 0 then 1 else -1)
  else 0

/-- `move_towards` (src/main.rs): one greedy unit step, per-axis rounded. -/
def moveTowards (id : Nat) (targetX targetY : Int) (map : GameMap)
    (objects : List Object) : List Object :=
  match objects[id]? with
  | none => objects  -- source panics on an out-of-bounds index
  | some o =>
      let dx := targetX - o.x
      let dy := targetY - o.y
      let s := dx ^ 2 + dy ^ 2
      moveBy id (roundStep dx s) (roundStep dy s) map objects

/-- `ai_basic` (src/main.rs).  The combat step uses `mut_two(monster_id,
PLAYER, objects)` from the missing utils.rs; modelled from the spec (§5):
two independent views at distinct indices, i.e. read both, write both
back (the source asserts the indices differ, and this call site always
has `monster_id ≠ PLAYER`: the turn loop gives the player no Ai turn). -/
def aiBasic (monsterId : Nat) (g : Game) (objects : List Object)
    (fov : Int → Int → Bool) : Game × List Object × Ai :=
  match objects[monsterId]?, objects[PLAYER]? with
  | some monster, some player =>
      if fov monster.x monster.y then
        if monster.distSqTo player ≥ 4 then
          (g, moveTowards monsterId player.x player.y g.map objects, Ai.basic)
        else if (player.fighter.map fun f => decide (f.hp > 0)).getD false then
          let r := monster.attack player g
          (r.2.2, (objects.set monsterId r.1).set PLAYER r.2.1, Ai.basic)
        else (g, objects, Ai.basic)
      else (g, objects, Ai.basic)
  | _, _ => (g, objects, Ai.basic)  -- source panics on an out-of-bounds index

/-- `ai_confused` (src/main.rs).  The two `gen_range(-1, 2)` draws are the
explicit `dx dy` arguments (each ranges over -1, 0, 1): while
`num_turns ≥ 0` take the random step and stay Confused with the counter
decremented; once it is negative, log and resume the previous Ai. -/
def aiConfused (monsterId : Nat) (g : Game) (objects : List Object)
    (previousAi : Ai) (numTurns : Int) (dx dy : Int) :
    Game × List Object × Ai :=
  if numTurns ≥ 0 then
    (g, moveBy monsterId dx dy g.map objects,
     Ai.confused previousAi (numTurns - 1))
  else
    let name := ((objects[monsterId]?).map (·.name)).getD ""
    (g.addLog (LogMsg.noLongerConfused name) Color.red, objects, previousAi)

/-- `ai_take_turn` (src/main.rs): `take()` the Ai out, dispatch, store the
returned Ai back. -/
def aiTakeTurn (monsterId : Nat) (g : Game) (objects : List Object)
    (fov : Int → Int → Bool) (dx dy : Int) : Game × List Object :=
  match objects[monsterId]? with
  | none => (g, objects)  -- source panics on an out-of-bounds index
  | some monster =>
      match monster.ai with
      | none => (g, objects)
      | some ai =>
          let objects0 := objects.set monsterId { monster with ai := none }
          let r :=
            match ai with
            | .basic => aiBasic monsterId g objects0 fov
            | .confused prev t => aiConfused monsterId g objects0 prev t dx dy
          match r.2.1[monsterId]? with
          | none => (r.1, r.2.1)
          | some m1 => (r.1, r.2.1.set monsterId { m1 with ai := some r.2.2 })

/-- `struct Rect` (src/main.rs). -/
structure RectR where
  x1 : Int
  y1 : Int
  x2 : Int
  y2 : Int
  deriving DecidableEq

/-- `Rect::new`. -/
def RectR.new (x y w h : Int) : RectR := ⟨x, y, x + w, y + h⟩

/-- `Rect::center` (`i32` division truncates toward zero: `Int.tdiv`). -/
def RectR.center (r : RectR) : Int × Int :=
  ((r.x1 + r.x2).tdiv 2, (r.y1 + r.y2).tdiv 2)

/-- `Rect::intersects_with`: inclusive bounding-box overlap. -/
def RectR.intersectsWith (self other : RectR) : Bool :=
  self.x1 ≤ other.x2 && self.x2 ≥ other.x1 &&
  self.y1 ≤ other.y2 && self.y2 ≥ other.y1

/-- `create_room` (src/main.rs): carve the interior, borders excluded. -/
def createRoom (room : RectR) (m : GameMap) : GameMap := fun x y =>
  if room.x1 + 1 ≤ x ∧ x < room.x2 ∧ room.y1 + 1 ≤ y ∧ y < room.y2 then
    Tile.empty
  else m x y

/-- `create_h_tunnel` (src/main.rs): inclusive horizontal carve. -/
def createHTunnel (x1 x2 y : Int) (m : GameMap) : GameMap := fun a b =>
  if min x1 x2 ≤ a ∧ a ≤ max x1 x2 ∧ b = y then Tile.empty else m a b

/-- `create_v_tunnel` (src/main.rs): inclusive vertical carve. -/
def createVTunnel (y1 y2 x : Int) (m : GameMap) : GameMap := fun a b =>
  if a = x ∧ min y1 y2 ≤ b ∧ b ≤ max y1 y2 then Tile.empty else m a b

/-- Loop body of `make_map`.  One iteration per candidate rect (the
source draws MAX_ROOMS random candidates; the candidate list is the
explicit randomness here, `coins` the `rand::random()` tunnel-order
draws).  A candidate intersecting any earlier candidate is skipped
(not carved), but — exactly as in the source, where `rooms.push(new_room)`
sits outside the `if !failed` block — every candidate, accepted or
rejected, is pushed onto `rooms`.  `place_objects` is omitted: it reads
the map and appends monster/item entities but never writes a tile nor
touches the player or the stairs, so it cannot affect anything below. -/
def makeMapGo (player : Object) :
    List RectR → List Bool → GameMap → List RectR →
    GameMap × List RectR × Object
  | [], _, m, rooms => (m, rooms, player)
  | r :: rest, coins, m, rooms =>
      let failed := rooms.any fun other => r.intersectsWith other
      if failed then makeMapGo player rest coins m (rooms ++ [r])
      else
        let m1 := createRoom r m
        let c := r.center
        if rooms.isEmpty then
          makeMapGo (player.setPos c.1 c.2) rest coins m1 (rooms ++ [r])
        else
          let prev := (rooms.getLast?.getD r).center
          let coin := coins.headD true
          let m2 :=
            if coin then
              createVTunnel prev.2 c.2 c.1 (createHTunnel prev.1 c.1 prev.2 m1)
            else
              createHTunnel prev.1 c.1 c.2 (createVTunnel prev.2 c.2 prev.1 m1)
          makeMapGo player rest coins.tail m2 (rooms ++ [r])

/-- `make_map` (src/main.rs): all-wall grid, carve candidate rooms with
tunnels, reposition the player to the first room's center, and push a
stairs object at the center of the last candidate in `rooms`.  Returns
(map, player, stairs).  Requires at least one candidate (the source
indexes `rooms[rooms.len() - 1]`, panicking when MAX_ROOMS = 0). -/
def makeMap (player : Object) (candidates : List RectR) (coins : List Bool) :
    GameMap × Object × Object :=
  let start : GameMap := fun _ _ => Tile.wall
  let r := makeMapGo player candidates coins start []
  let lastCenter := ((r.2.1.getLast?.getD (RectR.new 0 0 0 0))).center
  let stairs : Object :=
    { x := lastCenter.1, y := lastCenter.2, name := "stairs", blocks := false,
      alive := false, always_visible := true, glyph := '<',
      color := Color.white, level := 1, fighter := none, ai := none,
      item := none, equipment := none }
  (r.1, r.2.2, stairs)

/-- The three level-up menu options of `level_up` (src/main.rs); the
blocking menu loop is modelled by this choice argument. -/
inductive StatChoice
  | constitution | strength | agility
  deriving DecidableEq

/-- `level_up` (src/main.rs).  `LEVEL_UP_BASE` and `LEVEL_UP_FACTOR` live
in the missing constants.rs and are the `base`/`factor` arguments.  The
threshold uses the pre-increment level; past it: bump the level, log,
subtract the threshold from xp (surplus kept) and apply the one chosen
stat raise.  (`fighter.as_mut().unwrap()`: with no Fighter the guard reads
xp 0, so the branch is reached only when `threshold ≤ 0`; the source then
panics — modelled as returning the state unchanged, unreachable under the
theorem's hypotheses.) -/
def levelUp (base factor : Int) (choice : StatChoice) (p : Object) (g : Game) :
    Object × Game :=
  let levelUpXp := base + p.level * factor
  if ((p.fighter.map (·.xp)).getD 0) ≥ levelUpXp then
    let p1 := { p with level := p.level + 1 }
    let g1 := g.addLog (LogMsg.reachedLevel p1.level) Color.yellow
    match p1.fighter with
    | none => (p1, g1)  -- source panics here (unwrap on None)
    | some f =>
        let f1 := { f with xp := f.xp - levelUpXp }
        let f2 :=
          match choice with
          | .constitution => { f1 with base_max_hp := f1.base_max_hp + 20,
                                       hp := f1.hp + 20 }
          | .strength => { f1 with base_power := f1.base_power + 1 }
          | .agility => { f1 with base_defense := f1.base_defense + 1 }
        ({ p1 with fighter := some f2 }, g1)
  else (p, g)

/-! ### Concrete sample data for witnesses and counterexamples -/

/-- An all-floor map for concrete scenarios. -/
def openMap : GameMap := fun _ _ => Tile.empty

/-- The player of `new_game` (src/main.rs:482-491), with a chosen hp. -/
def samplePlayer (hp : Int) : Object :=
  { x := 0, y := 0, name := "player", blocks := true, alive := true,
    always_visible := false, glyph := '@', color := Color.white, level := 1,
    fighter := some { hp := hp, base_defense := 1, base_power := 2,
                      base_max_hp := 100, xp := 0, on_death := .player },
    ai := none, item := none, equipment := none }

/-- An orc as spawned by `place_objects` (src/main.rs:289-299), at (x, y)
and with a chosen Ai. -/
def sampleOrc (x y : Int) (ai : Option Ai) : Object :=
  { x := x, y := y, name := "orc", blocks := true, alive := true,
    always_visible := false, glyph := 'o', color := Color.desaturatedGreen,
    level := 1,
    fighter := some { hp := 20, base_defense := 0, base_power := 4,
                      base_max_hp := 20, xp := 35, on_death := .monster },
    ai := ai, item := none, equipment := none }

/-- A healing potion as spawned by `place_objects` (src/main.rs:390-395). -/
def samplePotion : Object :=
  { x := 0, y := 0, name := "healing potion", blocks := false, alive := false,
    always_visible := true, glyph := '!', color := Color.violet, level := 1,
    fighter := none, ai := none, item := some .heal, equipment := none }

/-- The starting dagger of `new_game` (src/main.rs:502-511): left-hand
Equipment, with a chosen `equipped` flag. -/
def sampleDagger (eq : Bool) : Object :=
  { x := 0, y := 0, name := "dagger", blocks := false, alive := false,
    always_visible := false, glyph := '-', color := Color.sky, level := 1,
    fighter := none, ai := none, item := some .sword,
    equipment := some ⟨Slot.leftHand, eq, 2, 0, 0⟩ }

/-- A shield as spawned by `place_objects` (src/main.rs:438-448):
left-hand Equipment, with a chosen `equipped` flag. -/
def sampleShield (eq : Bool) : Object :=
  { x := 0, y := 0, name := "shield", blocks := false, alive := false,
    always_visible := true, glyph := '[', color := Color.darkerOrange,
    level := 1, fighter := none, ai := none, item := some .shield,
    equipment := some ⟨Slot.leftHand, eq, 0, 1, 0⟩ }

/-- A sample constants bundle (HEAL_AMOUNT 40 etc.; the true values live
in the missing constants.rs — none of the concrete theorems depend on
which positive values are chosen). -/
def sampleConsts : Consts := ⟨40, 40, 5, 10, 3, 25⟩

/-! ### Claim-level helper predicates -/

/-- Number of equipped Equipments of a given slot in an inventory. -/
def equippedCountInSlot (s : Slot) (inv : List Object) : Nat :=
  (inv.filter fun o =>
    (o.equipment.map fun e => e.equipped && e.slot == s).getD false).length

/-- The §3 slot-exclusivity invariant: at most one equipped Equipment per
slot among the inventory. -/
def slotInvariant (inv : List Object) : Prop :=
  equippedCountInSlot .leftHand inv ≤ 1 ∧
  equippedCountInSlot .rightHand inv ≤ 1 ∧
  equippedCountInSlot .head inv ≤ 1

instance (inv : List Object) : Decidable (slotInvariant inv) := by
  unfold slotInvariant
  infer_instance

/-- Number of attack messages in a piece of log. -/
def countAttackEntries (log : Messages) : Nat :=
  (log.filter fun e =>
    match e.1 with
    | .attacksFor _ _ _ => true
    | _ => false).length

/-! ### C2 — healing -/

/-- C2: the claim says using a Heal item with hp strictly below effective
max-hp increases hp by the heal amount (capped) and consumes the item.
The code consumes the item but never changes hp: `Object::heal`
destructures the `Copy` fighter into a local, so the hp write is lost.
Here the player has hp 50 of max 100 and uses a potion worth 40: the
store still holds hp 50 afterwards (the claim requires 90), the potion is
gone, and the log got the "wounds start to feel better" entry. -/
def healScenario : List Object × Game :=
  useItem 0 [samplePlayer 50] ⟨openMap, [], [samplePotion], 1⟩
    (fun _ _ => true) none none sampleConsts

theorem use_heal_leaves_hp_unchanged_C2 :
    (healScenario.1.map fun o => o.fighter.map (·.hp)) = [some 50] ∧
    healScenario.2.inventory = [] ∧
    healScenario.2.log = [(LogMsg.woundsBetter, Color.lightViolet)] := by
  decide

/-! ### C4 — dungeon generation -/

/-- C4: the claim says the stairs tile is always carved.  In `make_map`,
`rooms.push(new_room)` sits outside the `if !failed` acceptance branch,
so rejected candidates also land in `rooms`, and the stairs go to the
center of the *last candidate* even when it was rejected and never
carved.  With candidates [Rect(0,0,4,4), Rect(2,2,4,4)] the second
overlaps the first and is rejected; the stairs end up at its center
(4,4), a wall tile, while the player stands at (2,2), a carved tile. -/
def mapScenario : GameMap × Object × Object :=
  makeMap (samplePlayer 100) [RectR.new 0 0 4 4, RectR.new 2 2 4 4] []

theorem stairs_on_wall_tile_C4 :
    mapScenario.2.2.x = 4 ∧ mapScenario.2.2.y = 4 ∧
    (mapScenario.1 4 4).blocked = true ∧
    mapScenario.2.1.x = 2 ∧ mapScenario.2.1.y = 2 ∧
    (mapScenario.1 2 2).blocked = false := by
  decide

/-! ### C5 — slot exclusivity across inventory operations -/

/-- C5: the claim says pick-up, toggle and drop preserve at-most-one
equipped Equipment per slot.  `drop_item` does not dequip, and
`pick_item_up` pushes an already-equipped ground item as-is, so from the
new-game inventory (equipped left-hand dagger) the sequence: drop the
dagger, pick up a shield (auto-equips into the now-free left hand), pick
the dagger back up, ends with two equipped left-hand items. -/
theorem double_equip_reachable_C5 :
    let g0 : Game := ⟨openMap, [], [sampleDagger true], 1⟩
    let w0 := [samplePlayer 100, sampleShield false]
    let s1 := dropItem 0 g0 w0
    let s2 := pickItemUp 1 s1.2 s1.1
    let s3 := pickItemUp 1 s2.1 s2.2
    slotInvariant g0.inventory ∧
    equippedCountInSlot .leftHand s3.2.inventory = 2 ∧
    ¬ slotInvariant s3.2.inventory := by
  decide

/-! ### C6 — toggle_equipment on an occupied slot -/

/-- C6: the claim says toggling an unequipped item whose slot is occupied
dequips the occupant and then equips the new item.  In the source the
`equip` call sits in the `else` branch of the occupant lookup, so only
the dequip happens: starting from [dagger equipped, shield unequipped]
(both left hand), toggling the shield leaves *both* unequipped. -/
theorem toggle_never_equips_into_occupied_slot_C6 :
    let g : Game := ⟨openMap, [], [sampleDagger true, sampleShield false], 1⟩
    ((toggleEquipment 1 g).1.inventory.map fun o =>
      o.equipment.map (·.equipped)) = [some false, some false] := by
  decide

/-! ### C9 counterexample — lightning range -/

/-- C9 counterexample: the claim says the struck monster is within the
given range.  `closest_monster` starts the bar at `max_range + 1`, so with
range 5 it selects a monster at squared distance 26 (> 25 = 5², i.e. real
distance √26 > 5). -/
theorem lightning_strikes_beyond_range_C9 :
    closestMonster 5 [samplePlayer 100, sampleOrc 5 1 (some Ai.basic)]
      (fun _ _ => true) = some 1 ∧
    (samplePlayer 100).distSqTo (sampleOrc 5 1 (some Ai.basic)) = 26 ∧
    ¬ ((samplePlayer 100).distSqTo (sampleOrc 5 1 (some Ai.basic)) ≤ 5 ^ 2) := by
  decide

/-! ### C3 — confusion countdown -/

/-- Iterate `ai_take_turn` on one monster: one `(dx, dy)` random draw pair
per evaluation. -/
def aiTurns (id : Nat) (fov : Int → Int → Bool) :
    List (Int × Int) → Game × List Object → Game × List Object
  | [], st => st
  | d :: ds, st => aiTurns id fov ds (aiTakeTurn id st.1 st.2 fov d.1 d.2)

/-- C3 counterexample: the claim says a monster with
`Confused { remaining = 3 }` reverts exactly on the 4th AI evaluation.
Since `ai_confused` keeps stumbling while `num_turns >= 0`, the counter
runs 3, 2, 1, 0, -1: after 4 evaluations the Ai is still
`Confused { remaining = -1 }`, and the revert happens on the 5th. -/
theorem confused_after_four_turns_C3 :
    let st0 : Game × List Object :=
      (⟨openMap, [], [], 1⟩, [samplePlayer 100, sampleOrc 3 3 (some (Ai.confused Ai.basic 3))])
    let fov : Int → Int → Bool := fun _ _ => true
    ((aiTurns 1 fov [(0,0), (0,0), (0,0), (0,0)] st0).2[1]?.bind (·.ai)) =
      some (Ai.confused Ai.basic (-1)) ∧
    ((aiTurns 1 fov [(0,0), (0,0), (0,0), (0,0), (0,0)] st0).2[1]?.bind (·.ai)) =
      some Ai.basic := by
  decide

/-! ### C10 — equip/dequip algebra -/

/-- C10: on an Item with an Equipment payload, `equip` is the identity
(object and log) when already equipped, and `dequip` is the identity when
already unequipped; on an object missing the Item tag or the Equipment
payload, each merely appends its error entry and returns the object
unchanged. -/
theorem equip_dequip_spec_C10 (o : Object) (log : Messages) :
    (∀ e, o.item.isSome → o.equipment = some e → e.equipped = true →
      o.equip log = (o, log)) ∧
    (∀ e, o.item.isSome → o.equipment = some e → e.equipped = false →
      o.dequip log = (o, log)) ∧
    (o.item = none →
      o.equip log = (o, addMsg log (LogMsg.cantEquipNotItem o.name) Color.red) ∧
      o.dequip log = (o, addMsg log (LogMsg.cantDequipNotItem o.name) Color.red)) ∧
    (o.item.isSome → o.equipment = none →
      o.equip log = (o, addMsg log (LogMsg.cantEquipNotEquipment o.name) Color.red) ∧
      o.dequip log = (o, addMsg log (LogMsg.cantDequipNotEquipment o.name) Color.red)) := by
  refine ⟨?_, ?_, ?_, ?_⟩
  · intro e hi he heq
    obtain ⟨it, hit⟩ := Option.isSome_iff_exists.mp hi
    simp [Object.equip, hit, he, heq]
  · intro e hi he heq
    obtain ⟨it, hit⟩ := Option.isSome_iff_exists.mp hi
    simp [Object.dequip, hit, he, heq]
  · intro hi
    constructor <;> simp [Object.equip, Object.dequip, hi]
  · intro hi he
    obtain ⟨it, hit⟩ := Option.isSome_iff_exists.mp hi
    constructor <;> simp [Object.equip, Object.dequip, hit, he]

/-- Witness for C10 at a concrete input: equipping the already-equipped
starting dagger changes nothing and logs nothing. -/
theorem equip_dequip_spec_C10_witness :
    (sampleDagger true).equip [] = (sampleDagger true, []) :=
  (equip_dequip_spec_C10 (sampleDagger true) []).1
    ⟨Slot.leftHand, true, 2, 0, 0⟩ (by decide) (by decide) rfl

/-! ### C7 — leveling -/

/-- C7: with a Fighter whose xp has reached the pre-level-up threshold
`base + level * factor`, `level_up` adds 1 to the level, subtracts exactly
the threshold from xp (surplus carries), applies exactly the one chosen
stat branch to the Fighter, leaves every other Object and Fighter field
alone, and logs the level-up line. -/
theorem level_up_spec_C7 (base factor : Int) (choice : StatChoice)
    (p : Object) (g : Game) (f : Fighter) (hf : p.fighter = some f)
    (hx : f.xp ≥ base + p.level * factor) :
    let th := base + p.level * factor
    let r := levelUp base factor choice p g
    (∃ f2, r.1 = { p with level := p.level + 1, fighter := some f2 } ∧
      f2.xp = f.xp - th ∧
      (choice = .constitution →
        f2 = { f with xp := f.xp - th, base_max_hp := f.base_max_hp + 20, hp := f.hp + 20 }) ∧
      (choice = .strength →
        f2 = { f with xp := f.xp - th, base_power := f.base_power + 1 }) ∧
      (choice = .agility →
        f2 = { f with xp := f.xp - th, base_defense := f.base_defense + 1 })) ∧
    r.2 = g.addLog (LogMsg.reachedLevel (p.level + 1)) Color.yellow := by
  intro th r
  cases choice <;>
    (simp only [levelUp, th, r, hf]
     rw [if_pos (by simpa using hx)]
     refine ⟨⟨_, rfl, rfl, ?_, ?_, ?_⟩, rfl⟩ <;> intro h <;>
       first
       | rfl
       | exact absurd h (by decide))

/-- A leveling player for the C7 witness: xp 400 against threshold
200 + 1·150 = 350, so 50 xp must remain. -/
def levelingPlayer : Object :=
  { samplePlayer 60 with fighter := some ⟨60, 1, 2, 100, 400, .player⟩ }

/-- Witness for C7: the concrete level-up carries the 50 surplus xp,
reaches level 2 and applies the constitution branch (+20 hp). -/
theorem level_up_spec_C7_witness :
    (levelUp 200 150 .constitution levelingPlayer ⟨openMap, [], [], 1⟩).1.level = 2 ∧
    ((levelUp 200 150 .constitution levelingPlayer ⟨openMap, [], [], 1⟩).1.fighter.map
      (·.xp)) = some 50 ∧
    ((levelUp 200 150 .constitution levelingPlayer ⟨openMap, [], [], 1⟩).1.fighter.map
      (·.hp)) = some 80 := by
  obtain ⟨⟨f2, h1, _, h3, _, _⟩, _⟩ :=
    level_up_spec_C7 200 150 .constitution levelingPlayer ⟨openMap, [], [], 1⟩
      ⟨60, 1, 2, 100, 400, .player⟩ rfl (by decide)
  rw [h1, h3 rfl]
  decide

/-! ### C1 — attack resolution -/

/-- `take_damage` only ever appends death messages, never attack
messages, and it appends at the end of the log. -/
theorem takeDamage_log (t : Object) (d : Int) (g : Game) :
    ∃ s, (t.takeDamage d g).2.1.log = g.log ++ s ∧ countAttackEntries s = 0 := by
  unfold Object.takeDamage applyDeath
  cases hts : (takeDamageSub t d).fighter with
  | none => exact ⟨[], by simp, rfl⟩
  | some f =>
      by_cases hle : f.hp ≤ 0
      · cases hcb : f.on_death with
        | player =>
            refine ⟨[(LogMsg.youDied, Color.darkRed)], ?_, rfl⟩
            simp [hle, hcb, DeathCallback.callback, playerDeath, Game.addLog, addMsg]
        | monster =>
            refine ⟨[(LogMsg.monsterDead (takeDamageSub t d).name f.xp, Color.orange)],
              ?_, rfl⟩
            simp [hle, hcb, DeathCallback.callback, monsterDeath, Game.addLog, addMsg, hts]
      · exact ⟨[], by simp [hle], rfl⟩

/-- After `take_damage` with positive damage against a present Fighter:
any Fighter still recorded on the target carries exactly hp − damage, and
a surviving target is exactly the hp-updated original. -/
theorem takeDamage_target (t : Object) (ft : Fighter) (d : Int) (g : Game)
    (ht : t.fighter = some ft) (hd : d > 0) :
    (ft.hp - d > 0 →
      (t.takeDamage d g).1 = { t with fighter := some { ft with hp := ft.hp - d } }) ∧
    (∀ f2, (t.takeDamage d g).1.fighter = some f2 → f2.hp = ft.hp - d) := by
  have hsub : takeDamageSub t d = { t with fighter := some { ft with hp := ft.hp - d } } := by
    simp [takeDamageSub, ht, hd]
  by_cases hle : ft.hp - d ≤ 0
  · refine ⟨fun hpos => absurd hpos (by omega), fun f2 hf2 => ?_⟩
    cases hdeath : ft.on_death with
    | player =>
        have hres : (t.takeDamage d g).1.fighter = some { ft with hp := ft.hp - d } := by
          simp [Object.takeDamage, applyDeath, hsub, hle, DeathCallback.callback,
            hdeath, playerDeath]
        rw [hres] at hf2
        simp only [Option.some.injEq] at hf2
        rw [← hf2]
    | monster =>
        have hres : (t.takeDamage d g).1.fighter = none := by
          simp [Object.takeDamage, applyDeath, hsub, hle, DeathCallback.callback,
            hdeath, monsterDeath]
        rw [hres] at hf2
        exact Option.noConfusion hf2
  · have hres : t.takeDamage d g =
        ({ t with fighter := some { ft with hp := ft.hp - d } }, g, none) := by
      simp [Object.takeDamage, applyDeath, hsub, hle]
    refine ⟨fun _ => by rw [hres], fun f2 hf2 => ?_⟩
    rw [hres] at hf2
    simp only [Option.some.injEq] at hf2
    rw [← hf2]

/-- C1: for attacker and defender that both have a Fighter, with damage =
effective power − effective defense: positive damage appends exactly one
attack entry (any further appended entries are death messages, not attack
entries) and is applied through `take_damage` — every Fighter remaining
on the defender afterwards carries exactly hp − damage, and a surviving
defender is exactly the hp-updated original; non-positive damage leaves
the defender untouched and appends exactly the one no-effect entry. -/
theorem attack_spec_C1 (a t : Object) (g : Game) (fa ft : Fighter)
    (_ha : a.fighter = some fa) (ht : t.fighter = some ft) :
    let damage := a.power g - t.defense g
    let r := a.attack t g
    (damage > 0 →
      (∃ s, r.2.2.log =
          g.log ++ (LogMsg.attacksFor a.name t.name damage, Color.desaturatedFuchsia) :: s ∧
        countAttackEntries s = 0) ∧
      (∀ f2, r.2.1.fighter = some f2 → f2.hp = ft.hp - damage) ∧
      (ft.hp - damage > 0 →
        r.2.1 = { t with fighter := some { ft with hp := ft.hp - damage } }) ∧
      r.2.1 = (t.takeDamage damage
        (g.addLog (LogMsg.attacksFor a.name t.name damage) Color.desaturatedFuchsia)).1) ∧
    (damage ≤ 0 →
      r.2.1 = t ∧
      r.2.2.log = g.log ++ [(LogMsg.noEffect a.name t.name, Color.desaturatedFuchsia)]) := by
  intro damage r
  constructor
  · intro hd
    have hd0 : a.power g - t.defense g > 0 := hd
    simp only [damage, r]
    set g1 := g.addLog (LogMsg.attacksFor a.name t.name (a.power g - t.defense g))
      Color.desaturatedFuchsia with hg1
    have hr : (a.attack t g).2.1 = (t.takeDamage (a.power g - t.defense g) g1).1 ∧
        (a.attack t g).2.2 = (t.takeDamage (a.power g - t.defense g) g1).2.1 := by
      simp only [Object.attack, if_pos hd0, ← hg1]
      cases (t.takeDamage (a.power g - t.defense g) g1).2.2 <;> cases a.fighter <;> simp
    obtain ⟨hobj, hgame⟩ := hr
    obtain ⟨s, hs, hcnt⟩ := takeDamage_log t (a.power g - t.defense g) g1
    have htd := takeDamage_target t ft (a.power g - t.defense g) g1 ht hd0
    refine ⟨⟨s, ?_, hcnt⟩, ?_, ?_, ?_⟩
    · rw [hgame, hs, hg1]
      simp [Game.addLog, addMsg]
    · intro f2 hf2
      exact htd.2 f2 (by rw [← hobj]; exact hf2)
    · intro hsurv
      rw [hobj]
      exact htd.1 hsurv
    · rw [hobj, hg1]
  · intro hd
    have hd0 : a.power g - t.defense g ≤ 0 := hd
    have hnd : ¬ (a.power g - t.defense g > 0) := by omega
    have hnd2 : ¬ (t.defense g < a.power g) := by omega
    simp only [damage, r]
    constructor <;> simp [Object.attack, hnd, hnd2, Game.addLog, addMsg]

/-- Witness for C1 at a concrete input: the sample player (power 2)
attacks an orc (defense 0, hp 20); exactly 2 hp are removed and the
attack line is logged. -/
theorem attack_spec_C1_witness :
    ((samplePlayer 100).attack (sampleOrc 1 0 (some Ai.basic))
        ⟨openMap, [], [], 1⟩).2.1 =
      { sampleOrc 1 0 (some Ai.basic) with fighter := some ⟨18, 0, 4, 20, 35, .monster⟩ } := by
  have h := attack_spec_C1 (samplePlayer 100) (sampleOrc 1 0 (some Ai.basic))
    ⟨openMap, [], [], 1⟩
    ⟨100, 1, 2, 100, 0, .player⟩ ⟨20, 0, 4, 20, 35, .monster⟩ rfl rfl
  obtain ⟨hpos, _⟩ := h
  obtain ⟨_, _, hsurv, _⟩ := hpos (by decide)
  rw [hsurv (by decide)]
  decide

/-! ### C8 — pick_item_up -/

/-- A hit in the prefix decides the `get_equipped_in_slot` scan of an
extended inventory. -/
theorem getEquippedInSlotGo_append_some (slot : Slot) (l1 l2 : List Object) :
    ∀ i k, getEquippedInSlotGo slot i l1 = some k →
      getEquippedInSlotGo slot i (l1 ++ l2) = some k := by
  induction l1 with
  | nil => intro i k h; exact absurd h (by simp [getEquippedInSlotGo])
  | cons a rest ih =>
      intro i k h
      by_cases hp : (a.equipment.map fun e => e.equipped && e.slot == slot).getD false
      · simpa [getEquippedInSlotGo, hp] using h
      · rw [getEquippedInSlotGo] at h
        rw [List.cons_append, getEquippedInSlotGo]
        simp only [hp, if_false]
        exact ih (i + 1) k (by simpa [hp] using h)

/-- A miss in the prefix pushes the `get_equipped_in_slot` scan into the
appended suffix, with the index advanced past the prefix. -/
theorem getEquippedInSlotGo_append_none (slot : Slot) (l1 l2 : List Object) :
    ∀ i, getEquippedInSlotGo slot i l1 = none →
      getEquippedInSlotGo slot i (l1 ++ l2) =
        getEquippedInSlotGo slot (i + l1.length) l2 := by
  induction l1 with
  | nil => intro i _; simp [getEquippedInSlotGo]
  | cons a rest ih =>
      intro i h
      by_cases hp : (a.equipment.map fun e => e.equipped && e.slot == slot).getD false
      · exact absurd h (by simp [getEquippedInSlotGo, hp])
      · rw [getEquippedInSlotGo] at h
        rw [List.cons_append, getEquippedInSlotGo]
        simp only [hp, if_false] at h ⊢
        rw [ih (i + 1) h, List.length_cons]
        have harith : i + 1 + rest.length = i + (rest.length + 1) := by omega
        rw [harith]
        simp

/-- Setting the position right past a list's end inside an append. -/
theorem set_append_last (l : List α) (a b : α) :
    (l ++ [a]).set l.length b = l ++ [b] := by
  induction l with
  | nil => rfl
  | cons x rest ih => simp [List.set, ih]

/-- Reading the position right past a list's end inside an append. -/
theorem getElem?_append_last (l : List α) (a : α) : (l ++ [a])[l.length]? = some a := by
  induction l with
  | nil => rfl
  | cons x rest ih => simp

/-- `swap_remove` shortens a nonempty list by exactly one. -/
theorem listSwapRemove_length (l : List α) (i : Nat) (h : l ≠ []) :
    (listSwapRemove l i).length + 1 = l.length := by
  unfold listSwapRemove
  cases hlast : l.getLast? with
  | none => exact absurd (List.getLast?_eq_none_iff.mp hlast) h
  | some last =>
      have hpos : 0 < l.length := List.length_pos.mpr h
      simp only [List.length_dropLast, List.length_set]
      omega

/-- The non-full branch of `pick_item_up`, written out: swap-remove from
the world, log, push, then the auto-equip decision over the pushed
inventory. -/
theorem pickItemUp_room (objectId : Nat) (objects : List Object) (g : Game)
    (o : Object) (ho : objects[objectId]? = some o)
    (hroom : g.inventory.length < 26) :
    pickItemUp objectId objects g =
      (listSwapRemove objects objectId,
        let g2 : Game := { g with
          log := addMsg g.log (LogMsg.pickedUp o.name) Color.green,
          inventory := g.inventory ++ [o] }
        match o.equipment with
        | none => g2
        | some e =>
            if (getEquippedInSlot e.slot (g.inventory ++ [o])).isNone then
              equipInventoryAt g.inventory.length g2
            else g2) := by
  have h26 : ¬ g.inventory.length ≥ 26 := by omega
  cases hoe : o.equipment with
  | none => simp [pickItemUp, h26, ho, hoe, Game.addLog]
  | some e =>
      simp [pickItemUp, h26, ho, hoe, Game.addLog]
      split <;> rfl

/-- C8: `pick_item_up` on a valid store index (the caller `handle_keys`
only picks objects carrying an Item tag, hence the `hitem` hypothesis).
At 26 or more inventory entries: one message, nothing else changes.
Otherwise the object is swap-removed from the world store and appended to
the inventory exactly once (store shrinks by one, inventory grows by
one), and it ends up equipped exactly when it carries Equipment whose
slot had no equipped occupant: auto-equipped if it arrived unequipped,
kept as-is otherwise. -/
theorem pick_item_up_spec_C8 (objectId : Nat) (objects : List Object)
    (g : Game) (o : Object) (ho : objects[objectId]? = some o)
    (hitem : o.item.isSome) :
    let r := pickItemUp objectId objects g
    (g.inventory.length ≥ 26 →
      r.1 = objects ∧ r.2.inventory = g.inventory ∧
      r.2.log = g.log ++ [(LogMsg.inventoryFull o.name, Color.red)]) ∧
    (g.inventory.length < 26 →
      r.1 = listSwapRemove objects objectId ∧
      r.1.length + 1 = objects.length ∧
      ∃ o2, r.2.inventory = g.inventory ++ [o2] ∧
        (o2 = o ∨ ∃ e, o.equipment = some e ∧
          o2 = { o with equipment := some { e with equipped := true } }) ∧
        (o.equipment = none → o2 = o) ∧
        (∀ e, o.equipment = some e →
          getEquippedInSlot e.slot g.inventory = none →
          (o2.equipment.map (·.equipped)) = some true) ∧
        (∀ e, o.equipment = some e →
          (getEquippedInSlot e.slot g.inventory).isSome → o2 = o)) := by
  intro r
  have hne : objects ≠ [] := by
    intro hnil
    rw [hnil] at ho
    simp at ho
  constructor
  · intro hfull
    refine ⟨?_, ?_, ?_⟩ <;>
      simp [r, pickItemUp, (by omega : g.inventory.length ≥ 26), ho,
        Game.addLog, addMsg]
  · intro hroom
    have hr := pickItemUp_room objectId objects g o ho hroom
    have hswap : r.1 = listSwapRemove objects objectId := by simp only [r, hr]
    refine ⟨hswap, by rw [hswap]; exact listSwapRemove_length objects objectId hne, ?_⟩
    cases hoe : o.equipment with
    | none =>
        refine ⟨o, ?_, Or.inl rfl, fun _ => rfl, ?_, ?_⟩
        · simp only [r, hr]
          simp [hoe]
        · intro e he
          simp [hoe] at he
        · intro e he
          simp [hoe] at he
    | some e =>
        cases hold : getEquippedInSlot e.slot g.inventory with
        | some k =>
            have happ : getEquippedInSlot e.slot (g.inventory ++ [o]) = some k :=
              getEquippedInSlotGo_append_some e.slot g.inventory [o] 0 k hold
            refine ⟨o, ?_, Or.inl rfl, fun _ => rfl, ?_, ?_⟩
            · simp only [r, hr]
              simp [hoe, happ]
            · intro e2 he2 hnone
              have hee : e = e2 := Option.some.inj he2
              rw [← hee] at hnone
              exact absurd hnone (by simp [hold])
            · intro _ _ _
              rfl
        | none =>
            have happ : getEquippedInSlot e.slot (g.inventory ++ [o]) =
                getEquippedInSlotGo e.slot g.inventory.length [o] := by
              have := getEquippedInSlotGo_append_none e.slot g.inventory [o] 0 hold
              simpa [getEquippedInSlot] using this
            cases heq : e.equipped with
            | true =>
                have hsuffix : getEquippedInSlotGo e.slot g.inventory.length [o] =
                    some g.inventory.length := by
                  simp [getEquippedInSlotGo, hoe, heq]
                refine ⟨o, ?_, Or.inl rfl, fun _ => rfl, ?_, ?_⟩
                · simp only [r, hr]
                  simp [hoe, happ, hsuffix]
                · intro e2 he2 _
                  simp [hoe, heq]
                · intro _ _ _
                  rfl
            | false =>
                have hsuffix : getEquippedInSlotGo e.slot g.inventory.length [o] = none := by
                  simp [getEquippedInSlotGo, hoe, heq]
                have hnotnone : o.item.isNone = false := by
                  cases hi : o.item
                  · rw [hi] at hitem; exact absurd hitem (by simp)
                  · rfl
                refine ⟨{ o with equipment := some { e with equipped := true } }, ?_,
                  Or.inr ⟨e, rfl, rfl⟩,
                  fun h => Option.noConfusion h, ?_, ?_⟩
                · simp only [r, hr]
                  simp only [hoe, happ, hsuffix, Option.isNone_none, if_true]
                  simp [equipInventoryAt, getElem?_append_last, Object.equip, hnotnone,
                    hoe, heq, set_append_last]
                · intro e2 he2 _
                  simp
                · intro e2 he2 hsome
                  have hee : e = e2 := Option.some.inj he2
                  rw [← hee] at hsome
                  rw [hold] at hsome
                  exact absurd hsome (by simp)

/-- Witness for C8 at a concrete input: picking up the potion moves it
from the world store into the inventory. -/
theorem pick_item_up_spec_C8_witness :
    (pickItemUp 1 [samplePlayer 100, samplePotion] ⟨openMap, [], [], 1⟩).2.inventory =
      [samplePotion] ∧
    (pickItemUp 1 [samplePlayer 100, samplePotion] ⟨openMap, [], [], 1⟩).1 =
      [samplePlayer 100] := by
  obtain ⟨_, hroom⟩ := pick_item_up_spec_C8 1 [samplePlayer 100, samplePotion]
    ⟨openMap, [], [], 1⟩ samplePotion rfl rfl
  obtain ⟨h1, _, o2, h2, _, hnone, _, _⟩ := hroom (by decide)
  refine ⟨?_, ?_⟩
  · rw [h2, hnone rfl]
    rfl
  · rw [h1]
    decide

/-! ### C3 — the confusion state machine -/

/-- `List.any` ignores a `set` whose new element gives the predicate the
same value as the old one. -/
theorem any_set_congr (p : α → Bool) (l : List α) :
    ∀ (i : Nat) (a b : α), l[i]? = some b → p a = p b →
      (l.set i a).any p = l.any p := by
  induction l with
  | nil => intro i a b h _; exact absurd h (by simp)
  | cons x rest ih =>
      intro i a b h hp
      cases i with
      | zero =>
          simp only [List.getElem?_cons_zero, Option.some.injEq] at h
          subst h
          simp [List.set, hp]
      | succ n =>
          simp only [List.getElem?_cons_succ] at h
          simp [List.set, ih n a b h hp]

/-- Taking the Ai out of the acting monster (`ai.take()` in
`ai_take_turn`) changes no collision check: `is_blocked` reads only
`blocks` and the position. -/
theorem isBlocked_set_ai (x y : Int) (map : GameMap) (l : List Object)
    (id : Nat) (m : Object) (hm : l[id]? = some m) :
    isBlocked x y map (l.set id { m with ai := none }) = isBlocked x y map l := by
  unfold isBlocked
  rw [any_set_congr (fun o : Object => o.blocks && o.x == x && o.y == y) l id
    { m with ai := none } m hm (by rfl)]

/-- `move_by` at a valid index: the Ai field is untouched and the
position takes exactly one collision-checked step — unchanged when the
destination is blocked, shifted by (dx, dy) otherwise. -/
theorem moveBy_spec (id : Nat) (dx dy : Int) (map : GameMap) (l : List Object)
    (m0 : Object) (hm : l[id]? = some m0) :
    ∃ m1, (moveBy id dx dy map l)[id]? = some m1 ∧ m1.ai = m0.ai ∧
      (isBlocked (m0.x + dx) (m0.y + dy) map l = true → m1 = m0) ∧
      (isBlocked (m0.x + dx) (m0.y + dy) map l = false →
        m1 = m0.setPos (m0.x + dx) (m0.y + dy)) := by
  have hid : id < l.length := (List.getElem?_eq_some_iff.mp hm).1
  by_cases hb : isBlocked (m0.x + dx) (m0.y + dy) map l
  · exact ⟨m0, by simp [moveBy, hm, hb], rfl, fun _ => rfl,
      fun h => absurd hb (by simp [h])⟩
  · refine ⟨m0.setPos (m0.x + dx) (m0.y + dy), ?_, rfl, fun h => absurd h hb,
      fun _ => rfl⟩
    simp [moveBy, hm, hb, List.getElem?_set_self hid]

/-- One AI evaluation of a Confused monster: while the counter is ≥ 0 the
monster stays Confused with the counter one lower, nothing is logged, and
the monster takes exactly one collision-checked (dx, dy) step — staying
put when the destination tile or a blocking entity blocks it, moving by
(dx, dy) otherwise; once the counter is negative, the Ai reverts to the
wrapped previous state, the "no longer confused" line is logged and the
monster does not move. -/
theorem aiTakeTurn_confused (id : Nat) (g : Game) (objects : List Object)
    (fov : Int → Int → Bool) (dx dy : Int) (m : Object) (prev : Ai) (t : Int)
    (hm : objects[id]? = some m) (hai : m.ai = some (Ai.confused prev t)) :
    let r := aiTakeTurn id g objects fov dx dy
    (t ≥ 0 → r.1.log = g.log ∧
      ∃ m2, r.2[id]? = some m2 ∧ m2.ai = some (Ai.confused prev (t - 1)) ∧
        (isBlocked (m.x + dx) (m.y + dy) g.map objects = true →
          m2.x = m.x ∧ m2.y = m.y) ∧
        (isBlocked (m.x + dx) (m.y + dy) g.map objects = false →
          m2.x = m.x + dx ∧ m2.y = m.y + dy)) ∧
    (t < 0 →
      r.1.log = g.log ++ [(LogMsg.noLongerConfused m.name, Color.red)] ∧
      ∃ m2, r.2[id]? = some m2 ∧ m2.ai = some prev ∧ m2.x = m.x ∧ m2.y = m.y) := by
  intro r
  have hid : id < objects.length := (List.getElem?_eq_some_iff.mp hm).1
  have h0 : (objects.set id { m with ai := none })[id]? = some { m with ai := none } :=
    List.getElem?_set_self (by simpa using hid)
  constructor
  · intro ht
    have hbeq : isBlocked (m.x + dx) (m.y + dy) g.map
        (objects.set id { m with ai := none }) =
        isBlocked (m.x + dx) (m.y + dy) g.map objects :=
      isBlocked_set_ai (m.x + dx) (m.y + dy) g.map objects id m hm
    obtain ⟨m1, hm1, hai1, hbl, hnb⟩ :=
      moveBy_spec id dx dy g.map (objects.set id { m with ai := none })
        { m with ai := none } h0
    have hbl2 : isBlocked (m.x + dx) (m.y + dy) g.map objects = true →
        m1 = { m with ai := none } := fun hb => hbl (hbeq.trans hb)
    have hnb2 : isBlocked (m.x + dx) (m.y + dy) g.map objects = false →
        m1 = Object.setPos { m with ai := none } (m.x + dx) (m.y + dy) :=
      fun hb => hnb (hbeq.trans hb)
    have hmove : id < (moveBy id dx dy g.map (objects.set id { m with ai := none })).length :=
      (List.getElem?_eq_some_iff.mp hm1).1
    refine ⟨?_, { m1 with ai := some (Ai.confused prev (t - 1)) }, ?_, rfl, ?_, ?_⟩
    · simp [r, aiTakeTurn, hm, hai, aiConfused, ht, hm1]
    · simp [r, aiTakeTurn, hm, hai, aiConfused, ht, hm1,
        List.getElem?_set_self hmove]
    · intro hb
      rw [hbl2 hb]
      exact ⟨rfl, rfl⟩
    · intro hb
      rw [hnb2 hb]
      exact ⟨rfl, rfl⟩
  · intro ht
    have htn : ¬ t ≥ 0 := by omega
    refine ⟨?_, { { m with ai := none } with ai := some prev }, ?_, rfl, rfl, rfl⟩
    · simp [r, aiTakeTurn, hm, hai, aiConfused, htn, h0, Game.addLog, addMsg]
    · simp [r, aiTakeTurn, hm, hai, aiConfused, htn, h0,
        List.getElem?_set_self (by simpa using hid)]

/-- Iterating the AI evaluation k times on a monster whose counter starts
at `t ≥ k - 1` leaves it Confused with counter `t - k` (and the first
`t + 1` evaluations are all of this shape). -/
theorem aiTurns_confused_countdown (id : Nat) (fov : Int → Int → Bool) :
    ∀ (ds : List (Int × Int)) (st : Game × List Object) (m : Object)
      (prev : Ai) (t : Int),
      st.2[id]? = some m → m.ai = some (Ai.confused prev t) →
      (ds.length : Int) ≤ t + 1 →
      ∃ m2, (aiTurns id fov ds st).2[id]? = some m2 ∧
        m2.ai = some (Ai.confused prev (t - ds.length)) := by
  intro ds
  induction ds with
  | nil =>
      intro st m prev t hm hai _
      exact ⟨m, hm, by simpa using hai⟩
  | cons d rest ih =>
      intro st m prev t hm hai hlen
      have ht : t ≥ 0 := by
        simp [List.length_cons] at hlen
        omega
      obtain ⟨hstep, m2, hm2, hai2, _, _⟩ :=
        (aiTakeTurn_confused id st.1 st.2 fov d.1 d.2 m prev t hm hai).1 ht
      obtain ⟨m3, hm3, hai3⟩ := ih (aiTakeTurn id st.1 st.2 fov d.1 d.2) m2 prev (t - 1)
        hm2 hai2 (by simp [List.length_cons] at hlen ⊢; omega)
      refine ⟨m3, by simpa [aiTurns] using hm3, ?_⟩
      rw [hai3]
      have : t - 1 - rest.length = t - (rest.length + 1) := by omega
      simp [List.length_cons, this]

/-- Evaluating the AI over a split delta list runs the two parts in
sequence. -/
theorem aiTurns_append (id : Nat) (fov : Int → Int → Bool)
    (l1 l2 : List (Int × Int)) (st : Game × List Object) :
    aiTurns id fov (l1 ++ l2) st = aiTurns id fov l2 (aiTurns id fov l1 st) := by
  induction l1 generalizing st with
  | nil => rfl
  | cons d rest ih =>
      simp only [List.cons_append, aiTurns]
      exact ih _

/-- C3 (amended): the per-evaluation behaviour of a Confused monster —
while remaining ≥ 0 it takes exactly one collision-checked (dx, dy) step
(the two per-axis random draws; position unchanged when the destination
is blocked by terrain or a blocking entity, shifted by (dx, dy)
otherwise), the counter decrements, the state stays Confused and nothing
is logged; at remaining < 0 the "no longer confused" line is logged, the
monster stays put and the Ai reverts — and the exact revert count for
`remaining = 3`: the Ai is still Confused after every set of 4
evaluations (counter 3, 2, 1, 0, -1) and reverts to the wrapped previous
state exactly on the 5th. -/
theorem confused_ai_spec_C3 (id : Nat) (g : Game) (objects : List Object)
    (fov : Int → Int → Bool) (m : Object) (prev : Ai)
    (hm : objects[id]? = some m) :
    (∀ t dx dy, m.ai = some (Ai.confused prev t) →
      let r := aiTakeTurn id g objects fov dx dy
      (t ≥ 0 → r.1.log = g.log ∧
        ∃ m2, r.2[id]? = some m2 ∧ m2.ai = some (Ai.confused prev (t - 1)) ∧
          (isBlocked (m.x + dx) (m.y + dy) g.map objects = true →
            m2.x = m.x ∧ m2.y = m.y) ∧
          (isBlocked (m.x + dx) (m.y + dy) g.map objects = false →
            m2.x = m.x + dx ∧ m2.y = m.y + dy)) ∧
      (t < 0 →
        r.1.log = g.log ++ [(LogMsg.noLongerConfused m.name, Color.red)] ∧
        ∃ m2, r.2[id]? = some m2 ∧ m2.ai = some prev ∧ m2.x = m.x ∧ m2.y = m.y)) ∧
    (m.ai = some (Ai.confused prev 3) →
      ∀ ds : List (Int × Int), ds.length ≤ 4 →
        (∃ m2, (aiTurns id fov ds (g, objects)).2[id]? = some m2 ∧
          m2.ai = some (Ai.confused prev (3 - ds.length))) ∧
        (ds.length = 4 → ∀ d5 : Int × Int,
          ∃ m3, (aiTurns id fov (ds ++ [d5]) (g, objects)).2[id]? = some m3 ∧
            m3.ai = some prev)) := by
  constructor
  · intro t dx dy hai
    exact aiTakeTurn_confused id g objects fov dx dy m prev t hm hai
  · intro hai ds hds
    have hcount := aiTurns_confused_countdown id fov ds (g, objects) m prev 3 hm hai
      (by omega)
    refine ⟨hcount, ?_⟩
    intro h4 d5
    obtain ⟨m2, hm2, hai2⟩ := hcount
    rw [h4] at hai2
    have hstep :=
      (aiTakeTurn_confused id (aiTurns id fov ds (g, objects)).1
        (aiTurns id fov ds (g, objects)).2 fov d5.1 d5.2 m2 prev (3 - (4 : Nat))
        hm2 hai2).2 (by norm_num)
    obtain ⟨_, m3, hm3, hai3, _, _⟩ := hstep
    refine ⟨m3, ?_, hai3⟩
    rw [aiTurns_append]
    exact hm3

/-- Witness for C3 at a concrete input: the orc confused for 3 turns is
back to Basic after the 5th evaluation. -/
theorem confused_ai_spec_C3_witness :
    ∃ m3, (aiTurns 1 (fun _ _ => true) [(0,0), (0,0), (0,0), (0,0), (0,0)]
        (⟨openMap, [], [], 1⟩,
         [samplePlayer 100, sampleOrc 3 3 (some (Ai.confused Ai.basic 3))])).2[1]? =
      some m3 ∧ m3.ai = some Ai.basic := by
  have h := (confused_ai_spec_C3 1 ⟨openMap, [], [], 1⟩
    [samplePlayer 100, sampleOrc 3 3 (some (Ai.confused Ai.basic 3))] (fun _ _ => true)
    (sampleOrc 3 3 (some (Ai.confused Ai.basic 3))) Ai.basic rfl).2 rfl
  obtain ⟨_, h4⟩ := h [(0,0), (0,0), (0,0), (0,0)] (by decide)
  have h5 := h4 rfl (0, 0)
  simpa using h5

/-! ### C9 — closest_monster and lightning -/

/-- Soundness of the `closest_monster` loop: a returned index is a
qualifying in-view monster, strictly inside the starting distance bar,
and no qualifying object anywhere in the store is strictly closer. -/
theorem closestMonsterGo_sound (p : Object) (fov : Int → Int → Bool)
    (full : List Object) (init : Int) :
    ∀ (rest : List Object) (i : Nat) (best : Option Nat) (bestSq : Int),
      full.drop i = rest →
      bestSq ≤ init →
      (best = none → bestSq = init) →
      (∀ b, best = some b →
        ∃ ob, full[b]? = some ob ∧ lightningTarget fov b ob = true ∧
          p.distSqTo ob = bestSq ∧ bestSq < init) →
      (∀ j oj, j < i → full[j]? = some oj → lightningTarget fov j oj = true →
        bestSq ≤ p.distSqTo oj) →
      ∀ k, closestMonsterGo p fov i rest best bestSq = some k →
        ∃ ok, full[k]? = some ok ∧ lightningTarget fov k ok = true ∧
          p.distSqTo ok < init ∧
          ∀ j oj, full[j]? = some oj → lightningTarget fov j oj = true →
            p.distSqTo ok ≤ p.distSqTo oj := by
  intro rest
  induction rest with
  | nil =>
      intro i best bestSq hdrop hle hnone hsome hmin k hk
      have hk2 : best = some k := by simpa [closestMonsterGo] using hk
      obtain ⟨ok, hok, hq, hdist, hlt⟩ := hsome k hk2
      refine ⟨ok, hok, hq, by omega, ?_⟩
      intro j oj hoj hqj
      have hlenle : full.length ≤ i := List.drop_eq_nil_iff.mp hdrop
      by_cases hji : j < i
      · have := hmin j oj hji hoj hqj
        omega
      · exfalso
        have hjlen : full.length ≤ j := by omega
        rw [List.getElem?_eq_none hjlen] at hoj
        exact Option.noConfusion hoj
  | cons o rest2 ih =>
      intro i best bestSq hdrop hle hnone hsome hmin k hk
      have hfi : full[i]? = some o := by
        have h0 : (full.drop i)[0]? = some o := by rw [hdrop]; simp
        rw [List.getElem?_drop] at h0
        simpa using h0
      have hdrop1 : full.drop (i + 1) = rest2 := by
        rw [← List.tail_drop, hdrop]
        rfl
      simp only [closestMonsterGo] at hk
      by_cases hq : lightningTarget fov i o = true
      · rw [if_pos hq] at hk
        by_cases hdlt : p.distSqTo o < bestSq
        · rw [if_pos hdlt] at hk
          refine ih (i + 1) (some i) (p.distSqTo o) hdrop1 (by omega)
            (fun h => Option.noConfusion h) ?_ ?_ k hk
          · intro b hb
            rw [Option.some.injEq] at hb
            exact ⟨o, hb ▸ hfi, hb ▸ hq, rfl, by omega⟩
          · intro j oj hj hoj hqj
            by_cases hji : j < i
            · have := hmin j oj hji hoj hqj
              omega
            · have hj_eq : j = i := by omega
              rw [hj_eq, hfi, Option.some.injEq] at hoj
              rw [← hoj]
        · rw [if_neg hdlt] at hk
          refine ih (i + 1) best bestSq hdrop1 hle hnone hsome ?_ k hk
          intro j oj hj hoj hqj
          by_cases hji : j < i
          · exact hmin j oj hji hoj hqj
          · have hj_eq : j = i := by omega
            rw [hj_eq, hfi, Option.some.injEq] at hoj
            rw [← hoj]
            omega
      · rw [if_neg hq] at hk
        refine ih (i + 1) best bestSq hdrop1 hle hnone hsome ?_ k hk
        intro j oj hj hoj hqj
        by_cases hji : j < i
        · exact hmin j oj hji hoj hqj
        · have hj_eq : j = i := by omega
          rw [hj_eq, hfi, Option.some.injEq] at hoj
          rw [← hoj, hj_eq] at hqj
          exact absurd hqj hq

/-- Completeness of the `closest_monster` loop: with nothing qualifying
strictly inside the bar, the scan returns nothing. -/
theorem closestMonsterGo_none (p : Object) (fov : Int → Int → Bool)
    (full : List Object) :
    ∀ (rest : List Object) (i : Nat) (bestSq : Int),
      full.drop i = rest →
      (∀ j oj, full[j]? = some oj → lightningTarget fov j oj = true →
        ¬ (p.distSqTo oj < bestSq)) →
      closestMonsterGo p fov i rest none bestSq = none := by
  intro rest
  induction rest with
  | nil => intro i bestSq _ _; simp [closestMonsterGo]
  | cons o rest2 ih =>
      intro i bestSq hdrop hno
      have hfi : full[i]? = some o := by
        have h0 : (full.drop i)[0]? = some o := by rw [hdrop]; simp
        rw [List.getElem?_drop] at h0
        simpa using h0
      have hdrop1 : full.drop (i + 1) = rest2 := by
        rw [← List.tail_drop, hdrop]
        rfl
      simp only [closestMonsterGo]
      by_cases hq : lightningTarget fov i o = true
      · rw [if_pos hq]
        have hnd : ¬ (p.distSqTo o < bestSq) := hno i o hfi hq
        rw [if_neg hnd]
        exact ih (i + 1) bestSq hdrop1 hno
      · rw [if_neg hq]
        exact ih (i + 1) bestSq hdrop1 hno

/-- C9 (amended): the entity struck by `closest_monster` is never the
player index, always has both a Fighter and an Ai, is in view, lies
strictly inside the `max_range + 1` bar (squared; i.e. it can be up to
but excluding distance range+1, not range), and no qualifying in-view
monster is strictly closer; and when no qualifying monster lies inside
that bar, `cast_lightning` only logs "no enemy is close enough" and
returns Cancelled, with the store untouched. -/
theorem closest_monster_spec_C9 (maxRange : Int) (objects : List Object)
    (fov : Int → Int → Bool) (g : Game) (c : Consts) :
    (∀ i, closestMonster maxRange objects fov = some i →
      i ≠ PLAYER ∧
      ∃ o, objects[i]? = some o ∧ o.fighter.isSome ∧ o.ai.isSome ∧
        fov o.x o.y = true ∧
        (storePlayer objects).distSqTo o < (maxRange + 1) ^ 2 ∧
        ∀ j oj, objects[j]? = some oj → j ≠ PLAYER → oj.fighter.isSome →
          oj.ai.isSome → fov oj.x oj.y = true →
          (storePlayer objects).distSqTo o ≤ (storePlayer objects).distSqTo oj) ∧
    ((∀ j oj, objects[j]? = some oj → j ≠ PLAYER → oj.fighter.isSome →
        oj.ai.isSome → fov oj.x oj.y = true →
        ¬ ((storePlayer objects).distSqTo oj < (c.lightningRange + 1) ^ 2)) →
      castLightning objects g fov c =
        (objects, g.addLog LogMsg.noEnemyClose Color.red, UseResult.cancelled)) := by
  constructor
  · intro i hi
    have hsound := closestMonsterGo_sound (storePlayer objects) fov objects
      ((maxRange + 1) ^ 2) objects 0 none ((maxRange + 1) ^ 2)
      (List.drop_zero _) le_rfl (fun _ => rfl) (fun b hb => Option.noConfusion hb)
      (fun j _ hj _ _ => absurd hj (by omega)) i hi
    obtain ⟨ok, hok, hq, hdist, hmin⟩ := hsound
    rw [lightningTarget] at hq
    simp only [Bool.and_eq_true, decide_eq_true_eq] at hq
    obtain ⟨⟨⟨hne, hf⟩, hai⟩, hfov⟩ := hq
    refine ⟨hne, ok, hok, hf, hai, hfov, hdist, ?_⟩
    intro j oj hoj hjne hjf hjai hjfov
    exact hmin j oj hoj (by simp [lightningTarget, hjne, hjf, hjai, hjfov])
  · intro hno
    have hnone : closestMonster c.lightningRange objects fov = none := by
      refine closestMonsterGo_none (storePlayer objects) fov objects objects 0
        ((c.lightningRange + 1) ^ 2) (List.drop_zero _) ?_
      intro j oj hoj hq
      rw [lightningTarget] at hq
      simp only [Bool.and_eq_true, decide_eq_true_eq] at hq
      exact hno j oj hoj hq.1.1.1 hq.1.1.2 hq.1.2 hq.2
    simp [castLightning, hnone]

/-- Witness for C9 at a concrete input: in the two-entity store the orc
at index 1 is returned with all the qualifying facts. -/
theorem closest_monster_spec_C9_witness :
    (1 : Nat) ≠ PLAYER ∧
    ∃ o, [samplePlayer 100, sampleOrc 5 1 (some Ai.basic)][(1 : Nat)]? = some o ∧
      o.fighter.isSome ∧ o.ai.isSome ∧
      (fun _ _ => true : Int → Int → Bool) o.x o.y = true ∧
      (storePlayer [samplePlayer 100, sampleOrc 5 1 (some Ai.basic)]).distSqTo o <
        (5 + 1) ^ 2 ∧
      ∀ j oj, [samplePlayer 100, sampleOrc 5 1 (some Ai.basic)][j]? = some oj →
        j ≠ PLAYER → oj.fighter.isSome → oj.ai.isSome →
        (fun _ _ => true : Int → Int → Bool) oj.x oj.y = true →
        (storePlayer [samplePlayer 100, sampleOrc 5 1 (some Ai.basic)]).distSqTo o ≤
          (storePlayer [samplePlayer 100, sampleOrc 5 1 (some Ai.basic)]).distSqTo oj :=
  (closest_monster_spec_C9 5 [samplePlayer 100, sampleOrc 5 1 (some Ai.basic)]
    (fun _ _ => true) ⟨openMap, [], [], 1⟩ sampleConsts).1 1 (by decide)

end Rustlike
